import Mathlib

/-!
Verification of the typed normalization and validation layer of the
digikey-api repository (`src/digikey/models.py`).

The embedding models Python values as a closed tagged family (`PyVal`,
`PyList`, `PyDict`), the `inflection` key-casing transforms as recursive
functions over character lists, and the `schematics` declarative-schema
runtime (conversion plus validation, reporting structured errors) as
explicit functions returning `Except`, where the `Except.error` side is a
raised Python exception and the `Except.ok` side a normally returned value.
All characters handled by the casing transforms are ASCII, where the Python
`str.upper`/`str.lower` agree with `Char.toUpper`/`Char.toLower`.
-/

namespace Digikey

/-! ### ASCII character classes of the regexes used by `inflection` -/

/-- The regex class `[A-Z]`. -/
def pyUpper (c : Char) : Bool := decide (65 ≤ c.toNat ∧ c.toNat ≤ 90)

/-- The regex class `[a-z]`. -/
def pyLower (c : Char) : Bool := decide (97 ≤ c.toNat ∧ c.toNat ≤ 122)

/-- The regex class `\d` restricted to ASCII, i.e. `[0-9]`. -/
def pyDigit (c : Char) : Bool := decide (48 ≤ c.toNat ∧ c.toNat ≤ 57)

/-! ### `inflection.camelize` and `inflection.underscore`

`camelize(string)` (with the default `uppercase_first_letter=True`) is
`re.sub(r"(?:^|_)(.)", lambda m: m.group(1).upper(), string)`:
the first character, and every character following an underscore, is
upper-cased with the underscore removed, scanning left to right with
non-overlapping matches.  `.` does not match a newline, so an underscore
followed by a newline is left in place. -/

/-- Scanning part of `camelize` after the leading match, as a left-to-right
scan where `pending` records that an underscore has just been consumed and
its match is waiting for the next character (`.` does not match a newline,
in which case the underscore is kept and scanning resumes at the newline). -/
def camelizeAux (pending : Bool) : List Char → List Char
  | [] => if pending then ['_'] else []
  | c :: rest =>
    if pending then
      if c = '\n' then '_' :: '\n' :: camelizeAux false rest
      else c.toUpper :: camelizeAux false rest
    else
      if c = '_' then camelizeAux true rest
      else c :: camelizeAux false rest

/-- Model of `inflection.camelize` on the character list of a string: the match at the
start anchor upper-cases the first character, then scanning continues. -/
def camelizeChars : List Char → List Char
  | [] => []
  | c :: rest => c.toUpper :: camelizeAux false rest

/-- First substitution of `inflection.underscore`:
`re.sub(r"([A-Z]+)([A-Z][a-z])", r"\1_\2", word)`.  With non-overlapping
left-to-right matching this inserts an underscore exactly between two
adjacent upper-case characters that are followed by a lower-case one; the
scan carries the previous character `prev` (already emitted). -/
def usAcronymAux (prev : Char) : List Char → List Char
  | b :: c :: rest =>
    if pyUpper prev && pyUpper b && pyLower c then '_' :: b :: usAcronymAux b (c :: rest)
    else b :: usAcronymAux b (c :: rest)
  | l => l

/-- Entry point of the first `underscore` substitution. -/
def usAcronym : List Char → List Char
  | [] => []
  | a :: rest => a :: usAcronymAux a rest

/-- Second substitution of `inflection.underscore`:
`re.sub(r"([a-z\d])([A-Z])", r"\1_\2", word)`: an underscore is inserted
between a lower-case letter or digit and an upper-case letter; the scan
carries the previous character `prev` (already emitted). -/
def usBoundaryAux (prev : Char) : List Char → List Char
  | [] => []
  | b :: rest =>
    if (pyLower prev || pyDigit prev) && pyUpper b then '_' :: b :: usBoundaryAux b rest
    else b :: usBoundaryAux b rest

/-- Entry point of the second `underscore` substitution. -/
def usBoundary : List Char → List Char
  | [] => []
  | a :: rest => a :: usBoundaryAux a rest

/-- Model of `inflection.underscore`: the two substitutions, then `replace("-", "_")`,
then `str.lower()`. -/
def underscoreChars (l : List Char) : List Char :=
  ((usBoundary (usAcronym l)).map fun c => if c = '-' then '_' else c).map Char.toLower

/-- Model of `inflection.camelize` on a string. -/
def camelizeStr (s : String) : String := ⟨camelizeChars s.data⟩

/-- Model of `inflection.underscore` on a string. -/
def underscoreStr (s : String) : String := ⟨underscoreChars s.data⟩

/-! ### Python values

JSON-like Python values: `None`, `int`, `str`, `list`, `dict` with string
keys.  The list and dict spines are part of one mutual inductive family so
that all recursive definitions over nested values are structural. -/

mutual

inductive PyVal where
  | vNone : PyVal
  | vInt (n : Int) : PyVal
  | vStr (s : String) : PyVal
  | vList (xs : PyList) : PyVal
  | vDict (kvs : PyDict) : PyVal

inductive PyList where
  | nil : PyList
  | cons (hd : PyVal) (tl : PyList) : PyList

inductive PyDict where
  | nil : PyDict
  | cons (k : String) (v : PyVal) (tl : PyDict) : PyDict

end

/-- Model of `dict.get(key)`: first-match association lookup (Python dicts have
unique keys, so first match is the match). -/
def PyDict.get? : PyDict → String → Option PyVal
  | .nil, _ => none
  | .cons k v tl, key => if k = key then some v else tl.get? key

/-- The underlying list of a Python list value. -/
def PyList.toList : PyList → List PyVal
  | .nil => []
  | .cons hd tl => hd :: tl.toList

mutual

/-- Model of `BaseModel.recursive_camelize`: camelize every dict key at any depth,
map over lists, return every other value unchanged. -/
def recursive_camelize : PyVal → PyVal
  | .vDict kvs => .vDict (camelizeDict kvs)
  | .vList xs => .vList (camelizeList xs)
  | v => v

/-- Key-camelizing a dict spine: `{camelize(k): recursive_camelize(v) ...}`. -/
def camelizeDict : PyDict → PyDict
  | .nil => .nil
  | .cons k v tl => .cons (camelizeStr k) (recursive_camelize v) (camelizeDict tl)

/-- Camelizing each element of a list spine. -/
def camelizeList : PyList → PyList
  | .nil => .nil
  | .cons v tl => .cons (recursive_camelize v) (camelizeList tl)

end

mutual

/-- Model of `BaseModel.recursive_underscore`: underscore every dict key at any depth,
map over lists, return every other value unchanged. -/
def recursive_underscore : PyVal → PyVal
  | .vDict kvs => .vDict (underscoreDict kvs)
  | .vList xs => .vList (underscoreList xs)
  | v => v

/-- Key-underscoring a dict spine: `{underscore(k): recursive_underscore(v) ...}`. -/
def underscoreDict : PyDict → PyDict
  | .nil => .nil
  | .cons k v tl => .cons (underscoreStr k) (recursive_underscore v) (underscoreDict tl)

/-- Underscoring each element of a list spine. -/
def underscoreList : PyList → PyList
  | .nil => .nil
  | .cons v tl => .cons (recursive_underscore v) (underscoreList tl)

end

/-! ### The `schematics` validation runtime

`Model(raw_data)` converts the raw mapping field by field (collecting
conversion failures into one `DataError` raised at construction), and
`.validate()` runs the per-field validators (required flag, choices,
length/value bounds, then custom `validate_<field>` methods), collecting
all violations into a `DataError`/`ValidationError` keyed by field name.
`BaseModel.errors` wraps construction-plus-validation in
`try/except (DataError, ValidationError)` and returns the messages.

Raised Python exceptions are the `Except.error` side; messages are
association lists from field name to message. -/

/-- A raised Python exception, as relevant to this layer. -/
inductive PyExc where
  | dataError (messages : List (String × String))
  | keyError (key : String)
  | typeError
  | attributeError
deriving DecidableEq

/-- Messages carried by a caught exception (`err.messages`). -/
def PyExc.messages : PyExc → List (String × String)
  | .dataError m => m
  | .keyError k => [("", k)]
  | .typeError => [("", "TypeError")]
  | .attributeError => [("", "AttributeError")]

/-- Model of `except (DataError, ValidationError)` in `BaseModel.errors`: the model
machinery wraps all field-level conversion and validation failures into a
`DataError` keyed by field. -/
def catchesValidation : PyExc → Bool
  | .dataError _ => true
  | _ => false

/-- Model of `except (ConversionError, DataError)` in `BaseModel.errors_list` and
`is_valid_list`. -/
def catchesConversion : PyExc → Bool
  | .dataError _ => true
  | _ => false

/-- Model of `IntType.to_native`: accepts a Python int, or a string parseable as an
int; everything else is a `ConversionError`. -/
def intToNative : PyVal → Except String Int
  | .vInt n => .ok n
  | .vStr s =>
    match s.toInt? with
    | some n => .ok n
    | none => .error "Value is not int."
  | _ => .error "Value is not int."

/-- Model of `StringType.to_native`: accepts a string, casts an int to its decimal
string (`allow_casts`); everything else is a `ConversionError`. -/
def strToNative : PyVal → Except String String
  | .vStr s => .ok s
  | .vInt n => .ok (toString n)
  | _ => .error "Value is not a string."

/-- Model of `ListType.to_native` composed with an element converter: the raw value
must be a Python list and every element must convert. -/
def listToNative (elem : PyVal → Except String α) (v : PyVal) :
    Except String (List α) :=
  match v with
  | .vList xs => convElems xs
  | _ => .error "Could not interpret the value as a list."
where
  convElems : PyList → Except String (List α)
    | .nil => .ok []
    | .cons x tl =>
      match elem x, convElems tl with
      | .ok a, .ok as_ => .ok (a :: as_)
      | .error m, _ => .error m
      | _, .error m => .error m

/-- Conversion of one schema field during the model import loop: an absent
key takes the default of the field (`none` if the field has no default), an
explicit `None` stays `None`, and any other value goes through the field
type conversion `to_native`. -/
def convertField (toNative : PyVal → Except String α) (dflt : Option α) :
    Option PyVal → Except String (Option α)
  | none => .ok dflt
  | some .vNone => .ok none
  | some v => (toNative v).map some

/-- The conversion-error entry contributed by one field to the `DataError`
raised at construction. -/
def fieldErr (name : String) : Except String α → List (String × String)
  | .error m => [(name, m)]
  | .ok _ => []

/-- The `required=True` / `choices=[...]` validators of a `StringType`
field: `None` fails the required check, any other value must be in the
choices list. -/
def requiredChoicesErrors (name : String) (choices : List String) :
    Option String → List (String × String)
  | none => [(name, "This field is required.")]
  | some s =>
    if s ∈ choices then [] else [(name, "Value must be one of the permitted values.")]

/-! ### The `Sort` request schema

`Sort` is a Lean keyword, so the model class `Sort` is embedded under the
name `SortModel`.  Raw input is the mapping restricted to the three schema
fields (`None` marks an absent key, `some PyVal.vNone` an explicit null). -/

/-- Model of `SortOptions`: the enumerated sort option values. -/
def sortOptionValues : List String :=
  ["SortByDigiKeyPartNumber", "SortByManufacturerPartNumber", "SortByDescription",
   "SortByManufacturer", "SortByMinimumOrderQuantity", "SortByQuantityAvailable",
   "SortByUnitPrice", "SortByParameter"]

/-- Model of `SortOptions.sort_by_parameter.value`. -/
def sortByParameterValue : String := "SortByParameter"

/-- Model of `SortDirections`: the enumerated sort direction values. -/
def sortDirectionValues : List String := ["Ascending", "Descending"]

/-- The raw mapping passed to `Sort(dict_)`, restricted to the schema
fields. -/
structure SortRaw where
  sort_option : Option PyVal
  direction : Option PyVal
  sort_parameter_id : Option PyVal

/-- The converted (native) data of a `Sort` instance. -/
structure SortData where
  sort_option : Option String
  direction : Option String
  sort_parameter_id : Option Int
deriving DecidableEq

/-- Model of `Sort(dict_)`: the import loop converting the three fields, raising one
`DataError` that collects every conversion failure. -/
def SortModel.convert (r : SortRaw) : Except PyExc SortData :=
  let e1 := convertField strToNative none r.sort_option
  let e2 := convertField strToNative none r.direction
  let e3 := convertField intToNative none r.sort_parameter_id
  match e1, e2, e3 with
  | .ok a, .ok b, .ok c => .ok ⟨a, b, c⟩
  | _, _, _ =>
    .error (.dataError (fieldErr "sort_option" e1 ++ fieldErr "direction" e2 ++
      fieldErr "sort_parameter_id" e3))

/-- Model of `Sort.validate_sort_parameter_id`: the cross-field rule, returning the
message of the raised `ValidationError` if any.  `data["sort_option"]` is
the converted value (`None` compares unequal to the enum value). -/
def validate_sort_parameter_id (data : SortData) : Option String :=
  if data.sort_option = some sortByParameterValue then
    if data.sort_parameter_id = none then
      some "If sorting by parameter a sort parameter must be set"
    else none
  else
    if data.sort_parameter_id ≠ none then
      some "If not sorting by parameter no sort parameter id should be provided"
    else none

/-- The validation pass of `Sort(dict_).validate()` on converted data:
required/choices checks for the two string fields, then the custom
validator, all collected keyed by field. -/
def SortModel.validateData (d : SortData) : Option (List (String × String)) :=
  let errs :=
    requiredChoicesErrors "sort_option" sortOptionValues d.sort_option ++
    requiredChoicesErrors "direction" sortDirectionValues d.direction ++
    (match validate_sort_parameter_id d with
     | some m => [("sort_parameter_id", m)]
     | none => [])
  if errs.isEmpty then none else some errs

/-- Model of `cls(dict_).validate()`: construction (which may raise a conversion
`DataError`) followed by validation (which raises a `DataError` with the
collected messages when any check fails). -/
def SortModel.validateExc (r : SortRaw) : Except PyExc Unit :=
  match SortModel.convert r with
  | .error e => .error e
  | .ok d =>
    match SortModel.validateData d with
    | some m => .error (.dataError m)
    | none => .ok ()

/-- Model of `BaseModel.errors` for `Sort`: try/except around `cls(dict_).validate()`,
returning `None` on success and `err.messages` on a caught
`DataError`/`ValidationError`. -/
def SortModel.errors (r : SortRaw) : Except PyExc (Option (List (String × String))) :=
  match SortModel.validateExc r with
  | .ok _ => .ok none
  | .error e => if catchesValidation e then .ok (some e.messages) else .error e

/-- Model of `BaseModel.is_valid` for `Sort`: `not cls.errors(dict_)` (a `None`
report is falsy, a non-empty message dict truthy). -/
def SortModel.is_valid (r : SortRaw) : Except PyExc Bool :=
  match SortModel.errors r with
  | .ok o => .ok o.isNone
  | .error e => .error e

/-! ### The `ParametricFilters` request schema -/

/-- The raw mapping passed to `ParametricFilters(dict_)`, restricted to the
schema fields. -/
structure ParametricFiltersRaw where
  parameter_id : Option PyVal
  value_id : Option PyVal

/-- The converted data of a `ParametricFilters` instance. -/
structure ParametricFiltersData where
  parameter_id : Option Int
  value_id : Option String
deriving DecidableEq

/-- Model of `ParametricFilters(dict_)`: the import loop for the two fields. -/
def ParametricFilters.convert (r : ParametricFiltersRaw) :
    Except PyExc ParametricFiltersData :=
  let e1 := convertField intToNative none r.parameter_id
  let e2 := convertField strToNative none r.value_id
  match e1, e2 with
  | .ok a, .ok b => .ok ⟨a, b⟩
  | _, _ => .error (.dataError (fieldErr "parameter_id" e1 ++ fieldErr "value_id" e2))

/-- The validation pass for `ParametricFilters`: `parameter_id` required;
`value_id` required with `min_length=1, max_length=100`. -/
def ParametricFilters.validateData (d : ParametricFiltersData) :
    Option (List (String × String)) :=
  let errs :=
    (match d.parameter_id with
     | none => [("parameter_id", "This field is required.")]
     | some _ => []) ++
    (match d.value_id with
     | none => [("value_id", "This field is required.")]
     | some s =>
       (if s.length < 1 then [("value_id", "String value is too short.")] else []) ++
       (if s.length > 100 then [("value_id", "String value is too long.")] else []))
  if errs.isEmpty then none else some errs

/-- Model of `cls(dict_).validate()` for `ParametricFilters`. -/
def ParametricFilters.validateExc (r : ParametricFiltersRaw) : Except PyExc Unit :=
  match ParametricFilters.convert r with
  | .error e => .error e
  | .ok d =>
    match ParametricFilters.validateData d with
    | some m => .error (.dataError m)
    | none => .ok ()

/-- Model of `BaseModel.errors` for `ParametricFilters`. -/
def ParametricFilters.errors (r : ParametricFiltersRaw) :
    Except PyExc (Option (List (String × String))) :=
  match ParametricFilters.validateExc r with
  | .ok _ => .ok none
  | .error e => if catchesValidation e then .ok (some e.messages) else .error e

/-- Model of `BaseModel.is_valid` for `ParametricFilters`. -/
def ParametricFilters.is_valid (r : ParametricFiltersRaw) : Except PyExc Bool :=
  match ParametricFilters.errors r with
  | .ok o => .ok o.isNone
  | .error e => .error e

/-! ### `BaseModel.errors_list`

```
errors = [cls(dict_).errors for dict_ in list_]
if any(errors):
    return [_f for _f in errors if _f]
return None
```

`errors` is a `@classmethod`; `cls(dict_).errors` is an *attribute access*
on it, not a call, so each comprehension element is the bound-method object
of the classmethod — which is always truthy.  Only the construction
`cls(dict_)` inside the comprehension can raise, and
`except (ConversionError, DataError)` turns that into `err.messages`. -/

/-- A Python attribute value produced by the `errors_list` comprehension. -/
inductive PyAttr where
  | boundMethod
deriving DecidableEq

/-- Truthiness of such an attribute value: a bound method object is always
truthy. -/
def PyAttr.truthy : PyAttr → Bool
  | .boundMethod => true

/-- The value returned by `errors_list`: `None`, a list of objects, or
`err.messages` from a caught construction error. -/
inductive ErrorsListResult where
  | pyNone
  | objects (xs : List PyAttr)
  | messages (m : List (String × String))
deriving DecidableEq

/-- The comprehension `[cls(dict_).errors for dict_ in list_]` for
`ParametricFilters`: each iteration constructs the model (which may raise a
conversion `DataError`) and then reads the `errors` attribute — the bound
classmethod object, not an error report. -/
def ParametricFilters.errorsAttrList :
    List ParametricFiltersRaw → Except PyExc (List PyAttr)
  | [] => .ok []
  | r :: rest =>
    match ParametricFilters.convert r with
    | .error e => .error e
    | .ok _ =>
      match ParametricFilters.errorsAttrList rest with
      | .error e => .error e
      | .ok xs => .ok (.boundMethod :: xs)

/-- Model of `BaseModel.errors_list` for `ParametricFilters`. -/
def ParametricFilters.errors_list (l : List ParametricFiltersRaw) :
    Except PyExc ErrorsListResult :=
  match ParametricFilters.errorsAttrList l with
  | .ok errors =>
    if errors.any PyAttr.truthy then .ok (.objects (errors.filter PyAttr.truthy))
    else .ok .pyNone
  | .error e => if catchesConversion e then .ok (.messages e.messages) else .error e

/-! ### The `Filters` and `KeywordSearchRequest` request schemas -/

/-- The converted data of a `Filters` instance. -/
structure FiltersData where
  taxonomy_ids : Option (List Int)
  manufacturer_ids : Option (List Int)
  parametric_filters : Option (List ParametricFiltersData)
deriving DecidableEq

/-- Model of the `ModelType(ParametricFilters)` conversion of one raw value: the value
must be a mapping, whose schema fields are pulled out and converted.  A
nested conversion `DataError` is flattened to one message here; the claims
never inspect nested message trees. -/
def ParametricFilters.ofPy (v : PyVal) : Except String ParametricFiltersData :=
  match v with
  | .vDict kvs =>
    match ParametricFilters.convert ⟨kvs.get? "parameter_id", kvs.get? "value_id"⟩ with
    | .ok d => .ok d
    | .error _ => .error "Nested model conversion failed."
  | _ => .error "Model conversion requires a mapping."

/-- Model of the `Filters(dict_)` conversion from a raw mapping value (used when `Filters`
appears as a `ModelType` field of `KeywordSearchRequest`). -/
def Filters.ofPy (v : PyVal) : Except String FiltersData :=
  match v with
  | .vDict kvs =>
    let e1 := convertField (listToNative intToNative) none (kvs.get? "taxonomy_ids")
    let e2 := convertField (listToNative intToNative) none (kvs.get? "manufacturer_ids")
    let e3 := convertField (listToNative ParametricFilters.ofPy) none
      (kvs.get? "parametric_filters")
    match e1, e2, e3 with
    | .ok a, .ok b, .ok c => .ok ⟨a, b, c⟩
    | _, _, _ => .error "Nested model conversion failed."
  | _ => .error "Model conversion requires a mapping."

/-- Model of the `ModelType(Sort)` conversion of one raw value. -/
def SortModel.ofPy (v : PyVal) : Except String SortData :=
  match v with
  | .vDict kvs =>
    match SortModel.convert
        ⟨kvs.get? "sort_option", kvs.get? "direction", kvs.get? "sort_parameter_id"⟩ with
    | .ok d => .ok d
    | .error _ => .error "Nested model conversion failed."
  | _ => .error "Model conversion requires a mapping."

/-- The validation pass for `Filters`: no field is required; nested
`ParametricFilters` models are validated recursively (a nested failure is
reported under the field name). -/
def Filters.validateData (d : FiltersData) : Option (List (String × String)) :=
  let errs :=
    match d.parametric_filters with
    | none => []
    | some pfs =>
      if pfs.all fun p => (ParametricFilters.validateData p).isNone then []
      else [("parametric_filters", "Nested model validation failed.")]
  if errs.isEmpty then none else some errs

/-- Model of `SearchOptions`: the enumerated search option values. -/
def searchOptionValues : List String :=
  ["LeadFree", "CollapsePackagingTypes", "ExcludeNonStock", "Has3DModel", "InStock",
   "ManufacturerPartSearch", "NewProductsOnly", "RoHSCompliant", "HasMentorFootprint"]

/-- The raw mapping passed to `KeywordSearchRequest(dict_)`, restricted to
the schema fields. -/
structure KeywordSearchRequestRaw where
  keywords : Option PyVal
  search_options : Option PyVal
  record_count : Option PyVal
  record_start_pos : Option PyVal
  filters : Option PyVal
  sort : Option PyVal
  requested_quantity : Option PyVal

/-- The converted data of a `KeywordSearchRequest` instance. -/
structure KeywordSearchRequestData where
  keywords : Option String
  search_options : Option (List String)
  record_count : Option Int
  record_start_pos : Option Int
  filters : Option FiltersData
  sort : Option SortData
  requested_quantity : Option Int
deriving DecidableEq

/-- Model of `KeywordSearchRequest(dict_)`: the import loop.  `record_count`,
`record_start_pos` and `requested_quantity` carry defaults `10`, `0` and
`1`, applied when the key is absent (an explicit `None` is kept and later
fails the required check for `record_count`). -/
def KeywordSearchRequest.convert (r : KeywordSearchRequestRaw) :
    Except PyExc KeywordSearchRequestData :=
  let e1 := convertField strToNative none r.keywords
  let e2 := convertField (listToNative strToNative) none r.search_options
  let e3 := convertField intToNative (some 10) r.record_count
  let e4 := convertField intToNative (some 0) r.record_start_pos
  let e5 := convertField Filters.ofPy none r.filters
  let e6 := convertField SortModel.ofPy none r.sort
  let e7 := convertField intToNative (some 1) r.requested_quantity
  match e1, e2, e3, e4, e5, e6, e7 with
  | .ok a, .ok b, .ok c, .ok d, .ok e, .ok f, .ok g => .ok ⟨a, b, c, d, e, f, g⟩
  | _, _, _, _, _, _, _ =>
    .error (.dataError (fieldErr "keywords" e1 ++ fieldErr "search_options" e2 ++
      fieldErr "record_count" e3 ++ fieldErr "record_start_pos" e4 ++
      fieldErr "filters" e5 ++ fieldErr "sort" e6 ++ fieldErr "requested_quantity" e7))

/-- The validation pass for `KeywordSearchRequest`: `keywords` required;
each search option must be one of the enumerated values; `record_count`
required with `min_value=1, max_value=50`; nested `Filters` and `Sort`
models are validated recursively (nested failures reported under the field
name). -/
def KeywordSearchRequest.validateData (d : KeywordSearchRequestData) :
    Option (List (String × String)) :=
  let errs :=
    (match d.keywords with
     | none => [("keywords", "This field is required.")]
     | some _ => []) ++
    (match d.search_options with
     | none => []
     | some opts =>
       if opts.all fun o => o ∈ searchOptionValues then []
       else [("search_options", "Value must be one of the permitted values.")]) ++
    (match d.record_count with
     | none => [("record_count", "This field is required.")]
     | some n =>
       (if n < 1 then [("record_count", "Int value should be greater than or equal to 1.")]
        else []) ++
       (if n > 50 then [("record_count", "Int value should be less than or equal to 50.")]
        else [])) ++
    (match d.filters with
     | none => []
     | some fd =>
       match Filters.validateData fd with
       | none => []
       | some _ => [("filters", "Nested model validation failed.")]) ++
    (match d.sort with
     | none => []
     | some sd =>
       match SortModel.validateData sd with
       | none => []
       | some _ => [("sort", "Nested model validation failed.")])
  if errs.isEmpty then none else some errs

/-- Model of `cls(dict_).validate()` for `KeywordSearchRequest`. -/
def KeywordSearchRequest.validateExc (r : KeywordSearchRequestRaw) : Except PyExc Unit :=
  match KeywordSearchRequest.convert r with
  | .error e => .error e
  | .ok d =>
    match KeywordSearchRequest.validateData d with
    | some m => .error (.dataError m)
    | none => .ok ()

/-- Model of `BaseModel.errors` for `KeywordSearchRequest`. -/
def KeywordSearchRequest.errors (r : KeywordSearchRequestRaw) :
    Except PyExc (Option (List (String × String))) :=
  match KeywordSearchRequest.validateExc r with
  | .ok _ => .ok none
  | .error e => if catchesValidation e then .ok (some e.messages) else .error e

/-! ### The response object graph

`LimitedTaxonomy` is a self-referential `schematics` model (`children` is a
`ListType(ModelType(LimitedTaxonomy))` appended after the class
definition); all its fields are optional.  The raw branch is key-underscored
before model construction. -/

/-- A constructed `LimitedTaxonomy` model instance. -/
inductive LimitedTaxonomy where
  | mk (product_count new_product_count parameter_id : Option Int)
      (value_id parameter value : Option String)
      (children : Option (List LimitedTaxonomy))

/-- The `children` field of a taxonomy node. -/
def LimitedTaxonomy.children : LimitedTaxonomy → Option (List LimitedTaxonomy)
  | .mk _ _ _ _ _ _ c => c

/-- The `product_count` field of a taxonomy node. -/
def LimitedTaxonomy.product_count : LimitedTaxonomy → Option Int
  | .mk pc _ _ _ _ _ _ => pc

/-- The `value` field of a taxonomy node. -/
def LimitedTaxonomy.value : LimitedTaxonomy → Option String
  | .mk _ _ _ _ _ v _ => v

mutual

/-- Model of `LimitedTaxonomy(dict_)`: conversion of an (already key-underscored) raw
value into the model, recursively converting the `children` list. -/
def LimitedTaxonomy.ofPy : PyVal → Except String LimitedTaxonomy
  | .vDict kvs =>
    let e1 := convertField intToNative none (kvs.get? "product_count")
    let e2 := convertField intToNative none (kvs.get? "new_product_count")
    let e3 := convertField intToNative none (kvs.get? "parameter_id")
    let e4 := convertField strToNative none (kvs.get? "value_id")
    let e5 := convertField strToNative none (kvs.get? "parameter")
    let e6 := convertField strToNative none (kvs.get? "value")
    match e1, e2, e3, e4, e5, e6, LimitedTaxonomy.childrenField kvs with
    | .ok a, .ok b, .ok c, .ok d, .ok e, .ok f, .ok g => .ok (.mk a b c d e f g)
    | _, _, _, _, _, _, _ => .error "Nested model conversion failed."
  | _ => .error "Model conversion requires a mapping."

/-- Conversion of the `children` field: the first `children` entry of the
mapping (Python dict keys are unique), `None`/absent giving no children and
a list value being converted element-wise. -/
def LimitedTaxonomy.childrenField : PyDict → Except String (Option (List LimitedTaxonomy))
  | .nil => .ok none
  | .cons k v tl =>
    if k = "children" then
      match v with
      | .vNone => .ok none
      | .vList xs =>
        match LimitedTaxonomy.ofPyList xs with
        | .ok ts => .ok (some ts)
        | .error m => .error m
      | _ => .error "Could not interpret the value as a list."
    else LimitedTaxonomy.childrenField tl

/-- Element-wise conversion of a list of raw taxonomy nodes. -/
def LimitedTaxonomy.ofPyList : PyList → Except String (List LimitedTaxonomy)
  | .nil => .ok []
  | .cons x tl =>
    match LimitedTaxonomy.ofPy x, LimitedTaxonomy.ofPyList tl with
    | .ok t, .ok ts => .ok (t :: ts)
    | .error m, _ => .error m
    | _, .error m => .error m

end

/-- A constructed `Value` model instance (a filter option value). -/
structure ValueModel where
  value_id : Option String
  value : Option String
deriving DecidableEq

/-- Model of the `Value(dict_)` conversion from an (already key-underscored) raw value. -/
def ValueModel.ofPy (v : PyVal) : Except String ValueModel :=
  match v with
  | .vDict kvs =>
    let e1 := convertField strToNative none (kvs.get? "value_id")
    let e2 := convertField strToNative none (kvs.get? "value")
    match e1, e2 with
    | .ok a, .ok b => .ok ⟨a, b⟩
    | _, _ => .error "Nested model conversion failed."
  | _ => .error "Model conversion requires a mapping."

/-- Element-wise conversion of a list of raw filter option values. -/
def ValueModel.ofPyList : PyList → Except String (List ValueModel)
  | .nil => .ok []
  | .cons x tl =>
    match ValueModel.ofPy x, ValueModel.ofPyList tl with
    | .ok t, .ok ts => .ok (t :: ts)
    | .error m, _ => .error m
    | _, .error m => .error m

/-- A constructed `FilterOption` model instance. -/
structure FilterOption where
  values : Option (List ValueModel)
  parameter_id : Option Int
  parameter : Option String
deriving DecidableEq

/-- Model of the `FilterOption(dict_)` conversion from an (already key-underscored) raw
value. -/
def FilterOption.ofPy (v : PyVal) : Except String FilterOption :=
  match v with
  | .vDict kvs =>
    let ev : Except String (Option (List ValueModel)) :=
      match kvs.get? "values" with
      | none => .ok none
      | some .vNone => .ok none
      | some (.vList xs) =>
        match ValueModel.ofPyList xs with
        | .ok ts => .ok (some ts)
        | .error m => .error m
      | some _ => .error "Could not interpret the value as a list."
    let e2 := convertField intToNative none (kvs.get? "parameter_id")
    let e3 := convertField strToNative none (kvs.get? "parameter")
    match ev, e2, e3 with
    | .ok a, .ok b, .ok c => .ok ⟨a, b, c⟩
    | _, _, _ => .error "Nested model conversion failed."
  | _ => .error "Model conversion requires a mapping."

/-- The comprehension
`[FilterOption(BaseModel.underscore(fo)) for fo in result["FilterOptions"]]`. -/
def FilterOption.ofEach : PyList → Except String (List FilterOption)
  | .nil => .ok []
  | .cons x tl =>
    match FilterOption.ofPy (recursive_underscore x), FilterOption.ofEach tl with
    | .ok t, .ok ts => .ok (t :: ts)
    | .error m, _ => .error m
    | _, .error m => .error m

/-- A `Part` value object: stores whatever raw value it is given, with no
validation at construction (`self._part = part`). -/
structure Part where
  _part : PyVal

/-- A constructed `KeywordSearchResult`: the stored raw response mapping and
the two eagerly built components. -/
structure KeywordSearchResult where
  _result : PyDict
  limited_taxonomy : LimitedTaxonomy
  filter_options : List FilterOption

/-- Model of `KeywordSearchResult.__init__`: stores the raw mapping, then eagerly
builds `limited_taxonomy` from `result["LimitedTaxonomy"]` (a `KeyError` if
the key is absent) after key-underscoring, and `filter_options` by
iterating `result["FilterOptions"]` (a `KeyError` if absent; iterating a
non-sequence raises `TypeError`).  A model-construction failure propagates
as an uncaught `DataError`. -/
def KeywordSearchResult.construct (result : PyDict) :
    Except PyExc KeywordSearchResult :=
  match result.get? "LimitedTaxonomy" with
  | none => .error (.keyError "LimitedTaxonomy")
  | some ltRaw =>
    match LimitedTaxonomy.ofPy (recursive_underscore ltRaw) with
    | .error m => .error (.dataError [("_model", m)])
    | .ok lt =>
      match result.get? "FilterOptions" with
      | none => .error (.keyError "FilterOptions")
      | some foRaw =>
        match foRaw with
        | .vList xs =>
          match FilterOption.ofEach xs with
          | .ok fos => .ok ⟨result, lt, fos⟩
          | .error m => .error (.dataError [("_model", m)])
        | _ => .error .typeError

/-- Model of `self._part.get(key, default)`: association lookup with a default; a
non-mapping receiver has no `.get` and raises `AttributeError`. -/
def Part.get (p : Part) (key : String) (dflt : PyVal) : Except PyExc PyVal :=
  match p._part with
  | .vDict kvs =>
    .ok (match kvs.get? key with
         | some v => v
         | none => dflt)
  | _ => .error .attributeError

/-- Model of `Part.moq`: `self._part.get("MinimumOrderQuantity", None)`. -/
def Part.moq (p : Part) : Except PyExc PyVal := p.get "MinimumOrderQuantity" .vNone

/-- Model of `Part.mpn`: `self._part.get("ManufacturerPartNumber", None)`. -/
def Part.mpn (p : Part) : Except PyExc PyVal := p.get "ManufacturerPartNumber" .vNone

/-- Model of `Part.in_stock`: `self._part.get("QuantityAvailable", None)`. -/
def Part.in_stock (p : Part) : Except PyExc PyVal := p.get "QuantityAvailable" .vNone

/-- Model of `Part.digikey_pn`: `self._part.get("DigiKeyPartNumber", None)`. -/
def Part.digikey_pn (p : Part) : Except PyExc PyVal := p.get "DigiKeyPartNumber" .vNone

/-- Model of `Part.part_status`: `self._part.get("PartStatus", None)`. -/
def Part.part_status (p : Part) : Except PyExc PyVal := p.get "PartStatus" .vNone

/-- Model of `Part.digikey_url`: `"https://www.digikey.com" + self._part.get("PartUrl", "")`;
concatenating a non-string raises `TypeError`. -/
def Part.digikey_url (p : Part) : Except PyExc String :=
  match p.get "PartUrl" (.vStr "") with
  | .ok (.vStr s) => .ok ("https://www.digikey.com" ++ s)
  | .ok _ => .error .typeError
  | .error e => .error e

/-- Model of `KeywordSearchResult.products`: on every access,
`[Part(result) for result in self._result.get("Products", [])]` — a fresh
list of `Part` wrappers over the raw items, in order.  Iterating a
non-sequence value raises `TypeError` (the Python corner of iterating a
string or dict is outside the raw shapes exercised here). -/
def KeywordSearchResult.products (k : KeywordSearchResult) :
    Except PyExc (List Part) :=
  match (match k._result.get? "Products" with
         | some v => v
         | none => .vList .nil) with
  | .vList xs => .ok (xs.toList.map Part.mk)
  | _ => .error .typeError

/-! ### Concrete raw-shape builders used by the taxonomy claims -/

/-- The scalar field values of one raw taxonomy node. -/
structure TaxFields where
  pc : Int
  npc : Int
  pid : Int
  vid : String
  par : String
  vl : String

/-- A raw (wire-cased) taxonomy node with the given scalar fields and
children. -/
def mkTaxRaw (t : TaxFields) (children : PyList) : PyVal :=
  .vDict (.cons "ProductCount" (.vInt t.pc) (.cons "NewProductCount" (.vInt t.npc)
    (.cons "ParameterId" (.vInt t.pid) (.cons "ValueId" (.vStr t.vid)
    (.cons "Parameter" (.vStr t.par) (.cons "Value" (.vStr t.vl)
    (.cons "Children" (.vList children) .nil)))))))

/-- The taxonomy model node expected from converting `mkTaxRaw`. -/
def mkTaxNode (t : TaxFields) (children : List LimitedTaxonomy) : LimitedTaxonomy :=
  .mk (some t.pc) (some t.npc) (some t.pid) (some t.vid) (some t.par) (some t.vl)
    (some children)

/-! ### Naming-convention predicates for the key-casing round trip -/

/-- A character allowed inside an identifier word: ASCII lower-case letter
or digit. -/
def wordChar (c : Char) : Bool := pyLower c || pyDigit c

/-- A well-formed identifier word: a lower-case letter followed by at least
one more lower-case letter or digit. -/
def goodWordB (w : List Char) : Bool :=
  match w with
  | c :: d :: r => pyLower c && wordChar d && r.all wordChar
  | _ => false

/-- Propositional form of `goodWordB`. -/
def goodWord (w : List Char) : Prop := goodWordB w = true

instance (w : List Char) : Decidable (goodWord w) :=
  inferInstanceAs (Decidable (goodWordB w = true))

/-- No two adjacent characters of the list are both upper-case (the shape of
a camelized string of well-formed words, on which the acronym substitution
cannot fire). -/
def noAdjUpper : List Char → Prop
  | a :: b :: rest => ¬(pyUpper a = true ∧ pyUpper b = true) ∧ noAdjUpper (b :: rest)
  | _ => True

/-- Words joined with single underscores. -/
def joinWords : List (List Char) → List Char
  | [] => []
  | [w] => w
  | w :: ws => w ++ '_' :: joinWords ws

/-- The underscore-prefixed continuation of a word list (`joinWords` past
its first word). -/
def wordTail : List (List Char) → List Char
  | [] => []
  | w :: ws => '_' :: (w ++ wordTail ws)

/-- A word with its first character upper-cased. -/
def capWord : List Char → List Char
  | [] => []
  | c :: r => c.toUpper :: r

/-- Capitalized words joined with no separator (CamelCase). -/
def joinCaps : List (List Char) → List Char
  | [] => []
  | w :: ws => capWord w ++ joinCaps ws

/-- A snake_case key in the expected naming convention: one or more
well-formed words joined by single underscores. -/
def goodSnakeKey (s : String) : Prop :=
  ∃ ws, ws ≠ [] ∧ (∀ w ∈ ws, goodWord w) ∧ s.data = joinWords ws

/-- A CamelCase key in the expected naming convention: the concatenation of
one or more capitalized well-formed words. -/
def goodCamelKey (s : String) : Prop :=
  ∃ ws, ws ≠ [] ∧ (∀ w ∈ ws, goodWord w) ∧ s.data = joinCaps ws

mutual

/-- Every dict key at any depth of the value is a `goodSnakeKey`. -/
def snakeKeysVal : PyVal → Prop
  | .vDict kvs => snakeKeysDict kvs
  | .vList xs => snakeKeysList xs
  | _ => True

/-- Predicate `snakeKeysVal` over a dict spine. -/
def snakeKeysDict : PyDict → Prop
  | .nil => True
  | .cons k v tl => goodSnakeKey k ∧ snakeKeysVal v ∧ snakeKeysDict tl

/-- Predicate `snakeKeysVal` over a list spine. -/
def snakeKeysList : PyList → Prop
  | .nil => True
  | .cons v tl => snakeKeysVal v ∧ snakeKeysList tl

end

mutual

/-- Every dict key at any depth of the value is a `goodCamelKey`. -/
def camelKeysVal : PyVal → Prop
  | .vDict kvs => camelKeysDict kvs
  | .vList xs => camelKeysList xs
  | _ => True

/-- Predicate `camelKeysVal` over a dict spine. -/
def camelKeysDict : PyDict → Prop
  | .nil => True
  | .cons k v tl => goodCamelKey k ∧ camelKeysVal v ∧ camelKeysDict tl

/-- Predicate `camelKeysVal` over a list spine. -/
def camelKeysList : PyList → Prop
  | .nil => True
  | .cons v tl => camelKeysVal v ∧ camelKeysList tl

end

/-- A snake_case key exactly as the claim words it ("underscore-style
(snake_case) keys"): one or more nonempty lower-case words joined by single
underscores, with no further restriction. -/
def plainSnakeKey (s : String) : Prop :=
  ∃ ws, ws ≠ [] ∧ (∀ w ∈ ws, w ≠ [] ∧ ∀ c ∈ w, pyLower c = true) ∧ s.data = joinWords ws

example : camelizeStr "product_count" = "ProductCount" := rfl
example : camelizeStr "sort_parameter_id" = "SortParameterId" := rfl
example : underscoreStr "ProductCount" = "product_count" := rfl
example : underscoreStr "SortByDigiKeyPartNumber" = "sort_by_digi_key_part_number" := rfl
example : underscoreStr (camelizeStr "value_id") = "value_id" := rfl
example : underscoreStr (camelizeStr "a_b") = "ab" := rfl

/-! ## Claim C2: the Sort cross-field rule -/

/-- Claim C2: for every Sort mapping with valid `sort_option` and `direction`
values, validation reports a cross-field violation attached to
`sort_parameter_id` exactly when `sort_option = "SortByParameter"` disagrees
with the presence of `sort_parameter_id`; otherwise it reports no error. -/
theorem C2_sort_cross_field (so dir : String)
    (hso : so ∈ sortOptionValues) (hdir : dir ∈ sortDirectionValues) :
    (SortModel.errors ⟨some (.vStr "SortByParameter"), some (.vStr dir), none⟩
      = .ok (some [("sort_parameter_id",
          "If sorting by parameter a sort parameter must be set")])) ∧
    (∀ n : Int,
      SortModel.errors ⟨some (.vStr "SortByParameter"), some (.vStr dir), some (.vInt n)⟩
        = .ok none) ∧
    (so ≠ "SortByParameter" → ∀ n : Int,
      SortModel.errors ⟨some (.vStr so), some (.vStr dir), some (.vInt n)⟩
        = .ok (some [("sort_parameter_id",
            "If not sorting by parameter no sort parameter id should be provided")])) ∧
    (so ≠ "SortByParameter" →
      SortModel.errors ⟨some (.vStr so), some (.vStr dir), none⟩ = .ok none) := by
  have hp : "SortByParameter" ∈ sortOptionValues := by decide
  refine ⟨?_, ?_, ?_, ?_⟩
  · simp [SortModel.errors, SortModel.validateExc, SortModel.convert, convertField,
      strToNative, Except.map, SortModel.validateData, requiredChoicesErrors,
      validate_sort_parameter_id, sortByParameterValue, hp, hdir, catchesValidation,
      PyExc.messages]
  · intro n
    simp [SortModel.errors, SortModel.validateExc, SortModel.convert, convertField,
      strToNative, intToNative, Except.map, SortModel.validateData,
      requiredChoicesErrors, validate_sort_parameter_id, sortByParameterValue, hp, hdir]
  · intro hne n
    simp [SortModel.errors, SortModel.validateExc, SortModel.convert, convertField,
      strToNative, intToNative, Except.map, SortModel.validateData,
      requiredChoicesErrors, validate_sort_parameter_id, sortByParameterValue,
      hso, hdir, hne, catchesValidation, PyExc.messages]
  · intro hne
    simp [SortModel.errors, SortModel.validateExc, SortModel.convert, convertField,
      strToNative, Except.map, SortModel.validateData, requiredChoicesErrors,
      validate_sort_parameter_id, sortByParameterValue, hso, hdir, hne]

/-- Witness for C2 at `sort_option = "SortByDescription"`,
`direction = "Ascending"`, `sort_parameter_id = 7`. -/
theorem C2_sort_cross_field_witness :
    ("SortByDescription" ∈ sortOptionValues ∧ "Ascending" ∈ sortDirectionValues) ∧
    SortModel.errors ⟨some (.vStr "SortByParameter"), some (.vStr "Ascending"), none⟩
      = .ok (some [("sort_parameter_id",
          "If sorting by parameter a sort parameter must be set")]) ∧
    SortModel.errors ⟨some (.vStr "SortByParameter"), some (.vStr "Ascending"),
        some (.vInt 7)⟩ = .ok none ∧
    SortModel.errors ⟨some (.vStr "SortByDescription"), some (.vStr "Ascending"),
        some (.vInt 7)⟩
      = .ok (some [("sort_parameter_id",
          "If not sorting by parameter no sort parameter id should be provided")]) ∧
    SortModel.errors ⟨some (.vStr "SortByDescription"), some (.vStr "Ascending"), none⟩
      = .ok none := by
  have h := C2_sort_cross_field "SortByDescription" "Ascending" (by decide) (by decide)
  exact ⟨⟨by decide, by decide⟩, h.1, h.2.1 7, h.2.2.1 (by decide) 7, h.2.2.2 (by decide)⟩

/-! ## Claim C8: `KeywordSearchRequest.record_count` bounds and default -/

/-- Claim C8: `KeywordSearchRequest` validation rejects `record_count` 51 and
0, accepts 50 and 1, and an absent `record_count` converts to the default 10
and validates. -/
theorem C8_record_count :
    KeywordSearchRequest.errors
        ⟨some (.vStr "resistor"), none, some (.vInt 51), none, none, none, none⟩
      = .ok (some [("record_count", "Int value should be less than or equal to 50.")]) ∧
    KeywordSearchRequest.errors
        ⟨some (.vStr "resistor"), none, some (.vInt 0), none, none, none, none⟩
      = .ok (some [("record_count", "Int value should be greater than or equal to 1.")]) ∧
    KeywordSearchRequest.errors
        ⟨some (.vStr "resistor"), none, some (.vInt 50), none, none, none, none⟩
      = .ok none ∧
    KeywordSearchRequest.errors
        ⟨some (.vStr "resistor"), none, some (.vInt 1), none, none, none, none⟩
      = .ok none ∧
    (KeywordSearchRequest.convert
        ⟨some (.vStr "resistor"), none, none, none, none, none, none⟩).map
        KeywordSearchRequestData.record_count = .ok (some 10) ∧
    KeywordSearchRequest.errors
        ⟨some (.vStr "resistor"), none, none, none, none, none, none⟩ = .ok none :=
  ⟨rfl, rfl, rfl, rfl, rfl, rfl⟩

/-! ## Claim C9: the `ParametricFilters` schema -/

/-- Claim C9: `ParametricFilters` validation rejects an empty `value_id`
(length below the minimum of 1) with an error on `value_id`, and accepts an
integer `parameter_id` with a `value_id` of length 1 through 100. -/
theorem C9_parametric_filters (pid : Int) (s : String)
    (h1 : 1 ≤ s.length) (h2 : s.length ≤ 100) :
    ParametricFilters.errors ⟨some (.vInt 1), some (.vStr "")⟩
      = .ok (some [("value_id", "String value is too short.")]) ∧
    ParametricFilters.errors ⟨some (.vInt pid), some (.vStr s)⟩ = .ok none := by
  refine ⟨rfl, ?_⟩
  simp [ParametricFilters.errors, ParametricFilters.validateExc,
    ParametricFilters.convert, convertField, intToNative, strToNative, Except.map,
    ParametricFilters.validateData]
  rw [if_pos (show ¬s.length = 0 ∧ s.length ≤ 100 from ⟨by omega, h2⟩)]

/-- Witness for C9 at `parameter_id = 1`, `value_id = "x"`. -/
theorem C9_parametric_filters_witness :
    (1 ≤ "x".length ∧ "x".length ≤ 100) ∧
    ParametricFilters.errors ⟨some (.vInt 1), some (.vStr "")⟩
      = .ok (some [("value_id", "String value is too short.")]) ∧
    ParametricFilters.errors ⟨some (.vInt 1), some (.vStr "x")⟩ = .ok none := by
  have h := C9_parametric_filters 1 "x" (by decide) (by decide)
  exact ⟨⟨by decide, by decide⟩, h.1, h.2⟩

/-! ## Claim C6: `Part` accessors -/

/-- Claim C6: each `Part` accessor reads one named raw field and returns its
declared default when the key is absent; `digikey_url` prepends the fixed
base URL to the raw relative path. -/
theorem C6_part_accessors :
    (Part.moq ⟨.vDict .nil⟩ = .ok .vNone) ∧
    (Part.moq ⟨.vDict (.cons "MinimumOrderQuantity" (.vInt 5) .nil)⟩ = .ok (.vInt 5)) ∧
    (Part.digikey_url ⟨.vDict .nil⟩ = .ok "https://www.digikey.com") ∧
    (∀ kvs, kvs.get? "MinimumOrderQuantity" = none → Part.moq ⟨.vDict kvs⟩ = .ok .vNone) ∧
    (∀ kvs v, kvs.get? "MinimumOrderQuantity" = some v → Part.moq ⟨.vDict kvs⟩ = .ok v) ∧
    (∀ kvs, kvs.get? "ManufacturerPartNumber" = none → Part.mpn ⟨.vDict kvs⟩ = .ok .vNone) ∧
    (∀ kvs, kvs.get? "QuantityAvailable" = none → Part.in_stock ⟨.vDict kvs⟩ = .ok .vNone) ∧
    (∀ kvs, kvs.get? "DigiKeyPartNumber" = none → Part.digikey_pn ⟨.vDict kvs⟩ = .ok .vNone) ∧
    (∀ kvs, kvs.get? "PartStatus" = none → Part.part_status ⟨.vDict kvs⟩ = .ok .vNone) ∧
    (∀ kvs s, kvs.get? "PartUrl" = some (.vStr s) →
      Part.digikey_url ⟨.vDict kvs⟩ = .ok ("https://www.digikey.com" ++ s)) ∧
    (∀ kvs, kvs.get? "PartUrl" = none →
      Part.digikey_url ⟨.vDict kvs⟩ = .ok "https://www.digikey.com") := by
  refine ⟨rfl, rfl, rfl, ?_, ?_, ?_, ?_, ?_, ?_, ?_, ?_⟩ <;>
    intro kvs <;>
    first
    | (intro v h
       simp [Part.moq, Part.mpn, Part.in_stock, Part.digikey_pn, Part.part_status,
         Part.digikey_url, Part.get, h])
    | (intro h
       simp [Part.moq, Part.mpn, Part.in_stock, Part.digikey_pn, Part.part_status,
         Part.digikey_url, Part.get, h])

/-- Witness for the universally quantified parts of C6 at concrete raw
mappings. -/
theorem C6_part_accessors_witness :
    (PyDict.nil.get? "MinimumOrderQuantity" = none ∧
      Part.moq ⟨.vDict .nil⟩ = .ok .vNone) ∧
    ((PyDict.cons "PartUrl" (.vStr "/p") .nil).get? "PartUrl" = some (.vStr "/p") ∧
      Part.digikey_url ⟨.vDict (.cons "PartUrl" (.vStr "/p") .nil)⟩
        = .ok "https://www.digikey.com/p") :=
  ⟨⟨rfl, C6_part_accessors.2.2.2.1 .nil rfl⟩,
   ⟨rfl, C6_part_accessors.2.2.2.2.2.2.2.2.2.1 (.cons "PartUrl" (.vStr "/p") .nil) "/p" rfl⟩⟩

/-! ## Claim C7: `products` is a derived, per-access view -/

/-- Claim C7: every access of `products` walks the raw `Products` branch
(empty sequence when absent) and wraps each raw item as a `Part`, one per
item in order; the result is a function of the stored raw mapping alone
(derived view, not a cached field), so accesses on equal raw mappings give
equal lists of equal length. -/
theorem C7_products_view :
    (∀ k xs, k._result.get? "Products" = some (.vList xs) →
      KeywordSearchResult.products k = .ok (xs.toList.map Part.mk)) ∧
    (∀ k, k._result.get? "Products" = none → KeywordSearchResult.products k = .ok []) ∧
    (∀ k k', k._result = k'._result →
      KeywordSearchResult.products k = KeywordSearchResult.products k') ∧
    (∀ k xs ps, k._result.get? "Products" = some (.vList xs) →
      KeywordSearchResult.products k = .ok ps → ps.length = xs.toList.length) := by
  refine ⟨?_, ?_, ?_, ?_⟩
  · intro k xs h; simp [KeywordSearchResult.products, h]
  · intro k h; simp [KeywordSearchResult.products, h, PyList.toList]
  · intro k k' h; simp [KeywordSearchResult.products, h]
  · intro k xs ps h hp
    simp [KeywordSearchResult.products, h] at hp
    simp [← hp]

/-- Witness for C7 at a concrete result with a two-item `Products` branch
and at one with no `Products` branch. -/
theorem C7_products_view_witness :
    ((PyDict.cons "Products" (.vList (.cons .vNone (.cons (.vInt 3) .nil))) .nil).get?
        "Products" = some (.vList (.cons .vNone (.cons (.vInt 3) .nil))) ∧
      KeywordSearchResult.products
          ⟨.cons "Products" (.vList (.cons .vNone (.cons (.vInt 3) .nil))) .nil,
            .mk none none none none none none none, []⟩
        = .ok [⟨.vNone⟩, ⟨.vInt 3⟩]) ∧
    (PyDict.nil.get? "Products" = none ∧
      KeywordSearchResult.products ⟨.nil, .mk none none none none none none none, []⟩
        = .ok []) :=
  ⟨⟨rfl, C7_products_view.1
      ⟨.cons "Products" (.vList (.cons .vNone (.cons (.vInt 3) .nil))) .nil,
        .mk none none none none none none none, []⟩
      (.cons .vNone (.cons (.vInt 3) .nil)) rfl⟩,
   ⟨rfl, C7_products_view.2.1 ⟨.nil, .mk none none none none none none none, []⟩ rfl⟩⟩

/-! ## Claim C5: eager construction of the taxonomy tree -/

/-- Claim C5: constructing a `KeywordSearchResult` whose `LimitedTaxonomy`
branch has two children, each with one grandchild, eagerly builds the
depth-3 taxonomy tree with every scalar field propagated unchanged (keys
rewritten to snake_case). -/
theorem C5_taxonomy_depth3 (t0 t1 t2 t11 t21 : TaxFields) :
    KeywordSearchResult.construct
      (.cons "LimitedTaxonomy"
        (mkTaxRaw t0 (.cons (mkTaxRaw t1 (.cons (mkTaxRaw t11 .nil) .nil))
          (.cons (mkTaxRaw t2 (.cons (mkTaxRaw t21 .nil) .nil)) .nil)))
        (.cons "FilterOptions" (.vList .nil) .nil))
      = .ok ⟨.cons "LimitedTaxonomy"
          (mkTaxRaw t0 (.cons (mkTaxRaw t1 (.cons (mkTaxRaw t11 .nil) .nil))
            (.cons (mkTaxRaw t2 (.cons (mkTaxRaw t21 .nil) .nil)) .nil)))
          (.cons "FilterOptions" (.vList .nil) .nil),
          mkTaxNode t0 [mkTaxNode t1 [mkTaxNode t11 []], mkTaxNode t2 [mkTaxNode t21 []]],
          []⟩ := rfl

/-! ## Claim C10: constructor key requirements -/

/-- Claim C10: `KeywordSearchResult` construction indexes `LimitedTaxonomy`
and `FilterOptions` directly (a lookup `KeyError` when absent), while
`Products` may be absent without fault; every successfully constructed
result had both keys present. -/
theorem C10_construct_requirements :
    (∀ result, result.get? "LimitedTaxonomy" = none →
      KeywordSearchResult.construct result = .error (.keyError "LimitedTaxonomy")) ∧
    (∀ result v lt, result.get? "LimitedTaxonomy" = some v →
      LimitedTaxonomy.ofPy (recursive_underscore v) = .ok lt →
      result.get? "FilterOptions" = none →
      KeywordSearchResult.construct result = .error (.keyError "FilterOptions")) ∧
    (∀ result k, KeywordSearchResult.construct result = .ok k →
      (∃ v, result.get? "LimitedTaxonomy" = some v) ∧
      (∃ v, result.get? "FilterOptions" = some v)) ∧
    (∀ t, (PyDict.cons "LimitedTaxonomy" (mkTaxRaw t .nil)
            (.cons "FilterOptions" (.vList .nil) .nil)).get? "Products" = none ∧
      KeywordSearchResult.construct
          (.cons "LimitedTaxonomy" (mkTaxRaw t .nil)
            (.cons "FilterOptions" (.vList .nil) .nil))
        = .ok ⟨.cons "LimitedTaxonomy" (mkTaxRaw t .nil)
            (.cons "FilterOptions" (.vList .nil) .nil), mkTaxNode t [], []⟩ ∧
      KeywordSearchResult.products
          ⟨.cons "LimitedTaxonomy" (mkTaxRaw t .nil)
            (.cons "FilterOptions" (.vList .nil) .nil), mkTaxNode t [], []⟩
        = .ok []) := by
  refine ⟨?_, ?_, ?_, ?_⟩
  · intro result h; simp [KeywordSearchResult.construct, h]
  · intro result v lt h1 h2 h3; simp [KeywordSearchResult.construct, h1, h2, h3]
  · intro result k h
    unfold KeywordSearchResult.construct at h
    cases h1 : result.get? "LimitedTaxonomy" with
    | none => simp [h1] at h
    | some v =>
      simp only [h1] at h
      refine ⟨⟨v, rfl⟩, ?_⟩
      cases h2 : LimitedTaxonomy.ofPy (recursive_underscore v) with
      | error m => simp [h2] at h
      | ok lt =>
        simp only [h2] at h
        cases h3 : result.get? "FilterOptions" with
        | none => simp [h3] at h
        | some w => exact ⟨w, rfl⟩
  · intro t; exact ⟨rfl, rfl, rfl⟩

/-- Witness for C10 at concrete raw mappings with a missing
`LimitedTaxonomy` key and a missing `FilterOptions` key. -/
theorem C10_construct_requirements_witness :
    (PyDict.nil.get? "LimitedTaxonomy" = none ∧
      KeywordSearchResult.construct .nil = .error (.keyError "LimitedTaxonomy")) ∧
    ((PyDict.cons "LimitedTaxonomy" (mkTaxRaw ⟨1, 2, 3, "v", "p", "n"⟩ .nil) .nil).get?
        "LimitedTaxonomy" = some (mkTaxRaw ⟨1, 2, 3, "v", "p", "n"⟩ .nil) ∧
      LimitedTaxonomy.ofPy (recursive_underscore (mkTaxRaw ⟨1, 2, 3, "v", "p", "n"⟩ .nil))
        = .ok (mkTaxNode ⟨1, 2, 3, "v", "p", "n"⟩ []) ∧
      KeywordSearchResult.construct
          (.cons "LimitedTaxonomy" (mkTaxRaw ⟨1, 2, 3, "v", "p", "n"⟩ .nil) .nil)
        = .error (.keyError "FilterOptions")) :=
  ⟨⟨rfl, C10_construct_requirements.1 .nil rfl⟩,
   ⟨rfl, rfl, C10_construct_requirements.2.1
      (.cons "LimitedTaxonomy" (mkTaxRaw ⟨1, 2, 3, "v", "p", "n"⟩ .nil) .nil)
      (mkTaxRaw ⟨1, 2, 3, "v", "p", "n"⟩ .nil) (mkTaxNode ⟨1, 2, 3, "v", "p", "n"⟩ [])
      rfl rfl rfl⟩⟩

/-! ## Claim C3: `errors_list` never reports per-element validity

The comprehension `[cls(dict_).errors for dict_ in list_]` reads the
classmethod `errors` as an attribute instead of calling it, so every element
is a truthy bound-method object: `errors_list` returns the full list of
those objects for any nonempty input, never `None`, and never a per-element
error report. -/

/-- Claim C3 evaluated on the code: a single fully valid element (accepted
by `is_valid`) still makes `errors_list` return a one-element list of
bound-method objects rather than `None`, so the returned length equals the
total element count, not the invalid-element count. -/
theorem C3_errors_list_eval :
    ParametricFilters.is_valid ⟨some (.vInt 1), some (.vStr "x")⟩ = .ok true ∧
    ParametricFilters.errors_list [⟨some (.vInt 1), some (.vStr "x")⟩]
      = .ok (.objects [.boundMethod]) ∧
    (ErrorsListResult.objects [.boundMethod]) ≠ .pyNone :=
  ⟨rfl, rfl, by simp⟩

/-! ## Claim C4: validation entry points never raise for malformed data -/

/-- Every exception raised by `Sort` construction is a conversion
`DataError`. -/
theorem sortConvert_error_shape (r : SortRaw) (e : PyExc)
    (h : SortModel.convert r = .error e) : ∃ m, e = .dataError m := by
  unfold SortModel.convert at h
  simp only [] at h
  split at h
  · exact absurd h (by simp)
  · exact ⟨_, ((Except.error.injEq _ _).mp h).symm⟩

/-- Every exception raised by `ParametricFilters` construction is a
conversion `DataError`. -/
theorem pfConvert_error_shape (r : ParametricFiltersRaw) (e : PyExc)
    (h : ParametricFilters.convert r = .error e) : ∃ m, e = .dataError m := by
  unfold ParametricFilters.convert at h
  simp only [] at h
  split at h
  · exact absurd h (by simp)
  · exact ⟨_, ((Except.error.injEq _ _).mp h).symm⟩

/-- Every exception raised by `KeywordSearchRequest` construction is a
conversion `DataError`. -/
theorem ksrqConvert_error_shape (r : KeywordSearchRequestRaw) (e : PyExc)
    (h : KeywordSearchRequest.convert r = .error e) : ∃ m, e = .dataError m := by
  unfold KeywordSearchRequest.convert at h
  simp only [] at h
  split at h
  · exact absurd h (by simp)
  · exact ⟨_, ((Except.error.injEq _ _).mp h).symm⟩

/-- Every exception raised by `Sort` construction-plus-validation is a
`DataError`. -/
theorem sortValidateExc_error_shape (r : SortRaw) (e : PyExc)
    (h : SortModel.validateExc r = .error e) : ∃ m, e = .dataError m := by
  unfold SortModel.validateExc at h
  cases hc : SortModel.convert r with
  | error e' =>
    rw [hc] at h
    exact ((Except.error.injEq _ _).mp h) ▸ sortConvert_error_shape r e' hc
  | ok d =>
    simp only [hc] at h
    cases hv : SortModel.validateData d with
    | none => rw [hv] at h; exact absurd h (by simp)
    | some m => rw [hv] at h; exact ⟨m, ((Except.error.injEq _ _).mp h).symm⟩

/-- Every exception raised by `ParametricFilters`
construction-plus-validation is a `DataError`. -/
theorem pfValidateExc_error_shape (r : ParametricFiltersRaw) (e : PyExc)
    (h : ParametricFilters.validateExc r = .error e) : ∃ m, e = .dataError m := by
  unfold ParametricFilters.validateExc at h
  cases hc : ParametricFilters.convert r with
  | error e' =>
    rw [hc] at h
    exact ((Except.error.injEq _ _).mp h) ▸ pfConvert_error_shape r e' hc
  | ok d =>
    simp only [hc] at h
    cases hv : ParametricFilters.validateData d with
    | none => rw [hv] at h; exact absurd h (by simp)
    | some m => rw [hv] at h; exact ⟨m, ((Except.error.injEq _ _).mp h).symm⟩

/-- Every exception raised by `KeywordSearchRequest`
construction-plus-validation is a `DataError`. -/
theorem ksrqValidateExc_error_shape (r : KeywordSearchRequestRaw) (e : PyExc)
    (h : KeywordSearchRequest.validateExc r = .error e) : ∃ m, e = .dataError m := by
  unfold KeywordSearchRequest.validateExc at h
  cases hc : KeywordSearchRequest.convert r with
  | error e' =>
    rw [hc] at h
    exact ((Except.error.injEq _ _).mp h) ▸ ksrqConvert_error_shape r e' hc
  | ok d =>
    simp only [hc] at h
    cases hv : KeywordSearchRequest.validateData d with
    | none => rw [hv] at h; exact absurd h (by simp)
    | some m => rw [hv] at h; exact ⟨m, ((Except.error.injEq _ _).mp h).symm⟩

/-- The entry point `Sort.errors` returns normally on every raw input. -/
theorem sortErrors_total (r : SortRaw) : ∃ o, SortModel.errors r = .ok o := by
  unfold SortModel.errors
  cases hv : SortModel.validateExc r with
  | ok u => exact ⟨none, rfl⟩
  | error e =>
    obtain ⟨m, rfl⟩ := sortValidateExc_error_shape r e hv
    exact ⟨some (PyExc.dataError m).messages, rfl⟩

/-- The entry point `ParametricFilters.errors` returns normally on every raw input. -/
theorem pfErrors_total (r : ParametricFiltersRaw) :
    ∃ o, ParametricFilters.errors r = .ok o := by
  unfold ParametricFilters.errors
  cases hv : ParametricFilters.validateExc r with
  | ok u => exact ⟨none, rfl⟩
  | error e =>
    obtain ⟨m, rfl⟩ := pfValidateExc_error_shape r e hv
    exact ⟨some (PyExc.dataError m).messages, rfl⟩

/-- The entry point `KeywordSearchRequest.errors` returns normally on every raw input. -/
theorem ksrqErrors_total (r : KeywordSearchRequestRaw) :
    ∃ o, KeywordSearchRequest.errors r = .ok o := by
  unfold KeywordSearchRequest.errors
  cases hv : KeywordSearchRequest.validateExc r with
  | ok u => exact ⟨none, rfl⟩
  | error e =>
    obtain ⟨m, rfl⟩ := ksrqValidateExc_error_shape r e hv
    exact ⟨some (PyExc.dataError m).messages, rfl⟩

/-- Every exception raised while building the `errors_list` comprehension is
a conversion `DataError`. -/
theorem pfAttrList_error_shape :
    ∀ (l : List ParametricFiltersRaw) (e : PyExc),
      ParametricFilters.errorsAttrList l = .error e → ∃ m, e = .dataError m := by
  intro l
  induction l with
  | nil => intro e h; exact absurd h (by simp [ParametricFilters.errorsAttrList])
  | cons r rest ih =>
    intro e h
    unfold ParametricFilters.errorsAttrList at h
    cases hc : ParametricFilters.convert r with
    | error e' =>
      rw [hc] at h
      exact ((Except.error.injEq _ _).mp h) ▸ pfConvert_error_shape r e' hc
    | ok d =>
      simp only [hc] at h
      cases ha : ParametricFilters.errorsAttrList rest with
      | error e' =>
        rw [ha] at h
        exact ((Except.error.injEq _ _).mp h) ▸ ih e' ha
      | ok xs => rw [ha] at h; exact absurd h (by simp)

/-- The entry point `ParametricFilters.errors_list` returns normally on every raw input
list. -/
theorem pfErrorsList_total (l : List ParametricFiltersRaw) :
    ∃ o, ParametricFilters.errors_list l = .ok o := by
  unfold ParametricFilters.errors_list
  cases ha : ParametricFilters.errorsAttrList l with
  | ok xs =>
    by_cases hx : xs.any PyAttr.truthy
    · exact ⟨.objects (xs.filter PyAttr.truthy), by simp [hx]⟩
    · exact ⟨.pyNone, by simp [hx]⟩
  | error e =>
    obtain ⟨m, rfl⟩ := pfAttrList_error_shape l e ha
    exact ⟨.messages (PyExc.dataError m).messages, rfl⟩

/-- Claim C4 evaluated on the code: data-level failures never escape the
validation entry points as raised exceptions — `errors` (for the `Sort`,
`ParametricFilters` and `KeywordSearchRequest` schemas), `is_valid` and
`errors_list` return normally on every raw input of the modelled universe.
The structured report keyed by field is produced by `errors` (here: the
constraint violation on `value_id`), but `errors_list` loses per-element
reports: on the same invalid element it returns the truthy bound-method
list instead of the value_id report, because the classmethod is read as an
attribute instead of being called. -/
theorem C4_no_raise_eval :
    (∀ r : SortRaw, ∃ o, SortModel.errors r = .ok o) ∧
    (∀ r : SortRaw, ∃ b, SortModel.is_valid r = .ok b) ∧
    (∀ r : ParametricFiltersRaw, ∃ o, ParametricFilters.errors r = .ok o) ∧
    (∀ r : KeywordSearchRequestRaw, ∃ o, KeywordSearchRequest.errors r = .ok o) ∧
    (∀ l : List ParametricFiltersRaw, ∃ o, ParametricFilters.errors_list l = .ok o) ∧
    ParametricFilters.errors ⟨some (.vInt 1), some (.vStr "")⟩
      = .ok (some [("value_id", "String value is too short.")]) ∧
    ParametricFilters.errors_list [⟨some (.vInt 1), some (.vStr "")⟩]
      = .ok (.objects [.boundMethod]) := by
  refine ⟨sortErrors_total, ?_, pfErrors_total, ksrqErrors_total, pfErrorsList_total,
    rfl, rfl⟩
  intro r
  obtain ⟨o, ho⟩ := sortErrors_total r
  exact ⟨o.isNone, by unfold SortModel.is_valid; rw [ho]⟩

/-! ## Claim C1: the key-casing round trip

### Character-level facts -/

/-- Unfolding `pyLower` to bounds on the code point. -/
theorem pyLower_iff {c : Char} : pyLower c = true ↔ 97 ≤ c.toNat ∧ c.toNat ≤ 122 := by
  simp [pyLower]

/-- Unfolding `pyUpper` to bounds on the code point. -/
theorem pyUpper_iff {c : Char} : pyUpper c = true ↔ 65 ≤ c.toNat ∧ c.toNat ≤ 90 := by
  simp [pyUpper]

/-- Unfolding `pyDigit` to bounds on the code point. -/
theorem pyDigit_iff {c : Char} : pyDigit c = true ↔ 48 ≤ c.toNat ∧ c.toNat ≤ 57 := by
  simp [pyDigit]

/-- Applying `Char.ofNat` to a small scalar value keeps the code point. -/
theorem char_toNat_ofNat {n : Nat} (h : n < 55296) : (Char.ofNat n).toNat = n := by
  have hv : n.isValidChar := Or.inl h
  rw [Char.ofNat, dif_pos hv]
  rfl

/-- Upper-casing a lower-case letter subtracts 32 from the code point. -/
theorem toNat_toUpper_of_lower {c : Char} (h : pyLower c = true) :
    (c.toUpper).toNat = c.toNat - 32 := by
  obtain ⟨h1, h2⟩ := pyLower_iff.mp h
  rw [Char.toUpper, if_pos ⟨h1, h2⟩]
  exact char_toNat_ofNat (by omega)

/-- The upper-cased form of a lower-case letter is upper-case. -/
theorem pyUpper_toUpper {c : Char} (h : pyLower c = true) : pyUpper c.toUpper = true := by
  obtain ⟨h1, h2⟩ := pyLower_iff.mp h
  rw [pyUpper_iff, toNat_toUpper_of_lower h]
  omega

/-- Lower-casing undoes upper-casing on a lower-case letter. -/
theorem toLower_toUpper_of_lower {c : Char} (h : pyLower c = true) :
    (c.toUpper).toLower = c := by
  obtain ⟨h1, h2⟩ := pyLower_iff.mp h
  have ht := toNat_toUpper_of_lower h
  rw [Char.toLower, if_pos (by omega), ht]
  have : c.toNat - 32 + 32 = c.toNat := by omega
  rw [this, Char.ofNat_toNat]

/-- Lower-casing fixes everything that is not an upper-case letter. -/
theorem toLower_of_not_upper {c : Char} (h : pyUpper c = false) : c.toLower = c := by
  rw [Char.toLower, if_neg]
  intro hc
  rw [pyUpper_iff.mpr hc] at h
  simp at h

/-- A word character is not upper-case. -/
theorem wordChar_not_upper {c : Char} (h : wordChar c = true) : pyUpper c = false := by
  rcases Bool.or_eq_true_iff.mp (by simpa [wordChar] using h) with hl | hd
  · obtain ⟨h1, h2⟩ := pyLower_iff.mp hl
    cases hu : pyUpper c with
    | false => rfl
    | true => obtain ⟨u1, u2⟩ := pyUpper_iff.mp hu; omega
  · obtain ⟨h1, h2⟩ := pyDigit_iff.mp hd
    cases hu : pyUpper c with
    | false => rfl
    | true => obtain ⟨u1, u2⟩ := pyUpper_iff.mp hu; omega

/-- A word character is neither an underscore nor a dash. -/
theorem wordChar_ne_special {c : Char} (h : wordChar c = true) : c ≠ '_' ∧ c ≠ '-' := by
  constructor <;> · rintro rfl; revert h; decide

/-- A word character is unchanged by lower-casing. -/
theorem wordChar_toLower {c : Char} (h : wordChar c = true) : c.toLower = c :=
  toLower_of_not_upper (wordChar_not_upper h)

/-- A lower-case letter is a word character. -/
theorem lower_wordChar {c : Char} (h : pyLower c = true) : wordChar c = true := by
  simp [wordChar, h]

/-- A lower-case letter is neither an underscore nor a newline. -/
theorem lower_ne_special {c : Char} (h : pyLower c = true) : c ≠ '_' ∧ c ≠ '\n' := by
  constructor <;> · rintro rfl; revert h; decide

/-- An upper-case letter is not a lower-case letter, a digit, or a dash. -/
theorem upper_not_special {c : Char} (h : pyUpper c = true) :
    pyLower c = false ∧ pyDigit c = false ∧ c ≠ '-' := by
  obtain ⟨h1, h2⟩ := pyUpper_iff.mp h
  refine ⟨?_, ?_, ?_⟩
  · cases hl : pyLower c with
    | false => rfl
    | true => obtain ⟨l1, l2⟩ := pyLower_iff.mp hl; omega
  · cases hd : pyDigit c with
    | false => rfl
    | true => obtain ⟨d1, d2⟩ := pyDigit_iff.mp hd; omega
  · rintro rfl; revert h; decide

/-- Destructor for `goodWord`. -/
theorem goodWord_elim {w : List Char} (h : goodWord w) :
    ∃ c r, w = c :: r ∧ pyLower c = true ∧ r ≠ [] ∧ ∀ d ∈ r, wordChar d = true := by
  cases w with
  | nil => exact absurd h (by simp [goodWord, goodWordB])
  | cons c w' =>
    cases w' with
    | nil => exact absurd h (by simp [goodWord, goodWordB])
    | cons d r =>
      have h' : pyLower c = true ∧ wordChar d = true ∧ r.all wordChar = true := by
        simpa [goodWord, goodWordB, Bool.and_assoc] using h
      refine ⟨c, d :: r, rfl, h'.1, by simp, ?_⟩
      intro e he
      rcases List.mem_cons.mp he with rfl | he'
      · exact h'.2.1
      · exact List.all_eq_true.mp h'.2.2 e he'

/-! ### `camelize` on a joined word list -/

/-- Unfolding `joinWords` on at least two words peels the first word. -/
theorem joinWords_cons (w w' : List Char) (ws : List (List Char)) :
    joinWords (w :: w' :: ws) = w ++ '_' :: joinWords (w' :: ws) := rfl

/-- Rewriting `joinWords` through `wordTail`. -/
theorem joinWords_eq_wordTail : ∀ (ws : List (List Char)) (w : List Char),
    joinWords (w :: ws) = w ++ wordTail ws
  | [], w => by simp [joinWords, wordTail]
  | w' :: ws', w => by
    rw [joinWords_cons, joinWords_eq_wordTail ws' w', wordTail]

/-- The `camelize` scan passes over word characters unchanged. -/
theorem camelizeAux_words (r : List Char) (t : List Char)
    (hr : ∀ d ∈ r, wordChar d = true) :
    camelizeAux false (r ++ t) = r ++ camelizeAux false t := by
  induction r with
  | nil => rfl
  | cons d r' ih =>
    have hd := (wordChar_ne_special (hr d (List.mem_cons_self d r'))).1
    show (if d = '_' then _ else d :: camelizeAux false (r' ++ t)) = _
    rw [if_neg hd, ih fun e he => hr e (List.mem_cons_of_mem d he)]
    rfl

/-- The `camelize` scan on the tail of a snake_case key upper-cases each
word-initial character and removes the separators. -/
theorem camelizeAux_tail : ∀ (ws : List (List Char)),
    (∀ w ∈ ws, goodWord w) → camelizeAux false (wordTail ws) = joinCaps ws
  | [], _ => rfl
  | w :: ws', h => by
    obtain ⟨c, r, rfl, hc, hrne, hwc⟩ := goodWord_elim (h w (List.mem_cons_self w ws'))
    show camelizeAux true ((c :: r) ++ wordTail ws') = _
    show (if c = '\n' then _ else c.toUpper :: camelizeAux false (r ++ wordTail ws')) = _
    rw [if_neg (lower_ne_special hc).2,
      camelizeAux_words r (wordTail ws') hwc,
      camelizeAux_tail ws' fun w hw => h w (List.mem_cons_of_mem _ hw)]
    rfl

/-- On a well-formed snake_case key, `camelize` yields the corresponding
CamelCase key. -/
theorem camelize_joinWords (ws : List (List Char)) (hws : ∀ w ∈ ws, goodWord w) :
    camelizeChars (joinWords ws) = joinCaps ws := by
  cases ws with
  | nil => rfl
  | cons w ws' =>
    obtain ⟨c, r, rfl, hc, hrne, hwc⟩ := goodWord_elim (hws w (List.mem_cons_self w ws'))
    rw [joinWords_eq_wordTail]
    show c.toUpper :: camelizeAux false (r ++ wordTail ws') = _
    rw [camelizeAux_words r _ hwc,
      camelizeAux_tail ws' fun w hw => hws w (List.mem_cons_of_mem _ hw)]
    rfl

/-! ### `underscore` on a joined capitalized word list -/

/-- The acronym substitution scan is the identity when no two adjacent
characters are upper-case. -/
theorem usAcronymAux_id : ∀ (l : List Char) (prev : Char),
    noAdjUpper (prev :: l) → usAcronymAux prev l = l
  | [], _, _ => rfl
  | [b], _, _ => rfl
  | b :: c :: rest, prev, h => by
    have h1 := h.1
    have hcond : (pyUpper prev && pyUpper b && pyLower c) = false := by
      cases hp : pyUpper prev <;> cases hb : pyUpper b <;> simp_all
    show (if pyUpper prev && pyUpper b && pyLower c then _
          else b :: usAcronymAux b (c :: rest)) = _
    rw [if_neg (by simp [hcond]), usAcronymAux_id (c :: rest) b h.2]

/-- Extending `noAdjUpper` along a non-upper-case head. -/
theorem noAdjUpper_cons {a : Char} {t : List Char} (ha : pyUpper a = false)
    (ht : noAdjUpper t) : noAdjUpper (a :: t) := by
  cases t with
  | nil => trivial
  | cons b t' => exact ⟨fun hab => by simp [ha] at hab, ht⟩

/-- Extending `noAdjUpper` along a run of non-upper-case characters. -/
theorem noAdjUpper_append {r t : List Char} (hr : ∀ d ∈ r, pyUpper d = false)
    (ht : noAdjUpper t) : noAdjUpper (r ++ t) := by
  induction r with
  | nil => exact ht
  | cons d r' ih =>
    exact noAdjUpper_cons (hr d (List.mem_cons_self d r'))
      (ih fun e he => hr e (List.mem_cons_of_mem d he))

/-- A camelized list of well-formed words has no two adjacent upper-case
characters. -/
theorem noAdjUpper_joinCaps : ∀ (ws : List (List Char)),
    (∀ w ∈ ws, goodWord w) → noAdjUpper (joinCaps ws)
  | [], _ => trivial
  | w :: ws', h => by
    obtain ⟨c, r, rfl, hc, hrne, hwc⟩ := goodWord_elim (h w (List.mem_cons_self w ws'))
    have hrec := noAdjUpper_joinCaps ws' fun w hw => h w (List.mem_cons_of_mem _ hw)
    have hr : noAdjUpper (r ++ joinCaps ws') :=
      noAdjUpper_append (fun d hd => wordChar_not_upper (hwc d hd)) hrec
    obtain ⟨d, r', rfl⟩ := List.exists_cons_of_ne_nil hrne
    exact ⟨fun h2 => by
        have := wordChar_not_upper (hwc d (List.mem_cons_self d r'))
        simp [this] at h2, hr⟩

/-- The acronym substitution is the identity on a camelized list of
well-formed words. -/
theorem usAcronym_joinCaps (ws : List (List Char)) (hws : ∀ w ∈ ws, goodWord w) :
    usAcronym (joinCaps ws) = joinCaps ws := by
  cases hj : joinCaps ws with
  | nil => rfl
  | cons a rest =>
    show a :: usAcronymAux a rest = a :: rest
    rw [usAcronymAux_id rest a (hj ▸ noAdjUpper_joinCaps ws hws)]

/-- The boundary substitution scan is the identity on word characters. -/
theorem usBoundaryAux_words : ∀ (r : List Char) (prev : Char),
    (∀ d ∈ r, wordChar d = true) → usBoundaryAux prev r = r
  | [], _, _ => rfl
  | b :: r', prev, h => by
    have hb : pyUpper b = false := wordChar_not_upper (h b (List.mem_cons_self b r'))
    show (if (pyLower prev || pyDigit prev) && pyUpper b then _
          else b :: usBoundaryAux b r') = _
    rw [if_neg (by simp [hb]),
      usBoundaryAux_words r' b fun d hd => h d (List.mem_cons_of_mem b hd)]

/-- The boundary substitution inserts an underscore between a run of word
characters and a following upper-case character. -/
theorem usBoundaryAux_boundary : ∀ (r : List Char) (prev u : Char) (t : List Char),
    r ≠ [] → (∀ d ∈ r, wordChar d = true) → pyUpper u = true →
    usBoundaryAux prev (r ++ u :: t) = r ++ '_' :: u :: usBoundaryAux u t
  | [], _, _, _, hne, _, _ => absurd rfl hne
  | [d], prev, u, t, _, h, hu => by
    have hd := h d (List.mem_cons_self d [])
    show (if (pyLower prev || pyDigit prev) && pyUpper d then _
          else d :: usBoundaryAux d (u :: t)) = _
    rw [if_neg (by simp [wordChar_not_upper hd])]
    show d :: (if (pyLower d || pyDigit d) && pyUpper u then '_' :: u :: usBoundaryAux u t
          else _) = _
    rw [if_pos (by simp [hu, show (pyLower d || pyDigit d) = true from hd])]
    rfl
  | d :: d' :: r', prev, u, t, _, h, hu => by
    have hd := h d (List.mem_cons_self d (d' :: r'))
    show (if (pyLower prev || pyDigit prev) && pyUpper d then _
          else d :: usBoundaryAux d ((d' :: r') ++ u :: t)) = _
    rw [if_neg (by simp [wordChar_not_upper hd]),
      usBoundaryAux_boundary (d' :: r') d u t (by simp)
        (fun e he => h e (List.mem_cons_of_mem d he)) hu]
    rfl

/-- The boundary substitution scan restores the word separators of a
camelized list of well-formed words. -/
theorem usBoundaryAux_joinCaps : ∀ (ws : List (List Char)),
    (∀ w ∈ ws, goodWord w) → ∀ (r : List Char) (prev : Char),
    r ≠ [] → (∀ d ∈ r, wordChar d = true) →
    usBoundaryAux prev (r ++ joinCaps ws) = r ++ wordTail (ws.map capWord)
  | [], _, r, prev, hne, hr => by
    show usBoundaryAux prev (r ++ []) = r ++ []
    rw [List.append_nil]
    exact usBoundaryAux_words r prev hr
  | w :: ws', hws, r, prev, hne, hr => by
    obtain ⟨c, rw2, rfl, hc, hrne2, hwc2⟩ :=
      goodWord_elim (hws w (List.mem_cons_self w ws'))
    show usBoundaryAux prev (r ++ (c.toUpper :: (rw2 ++ joinCaps ws'))) = _
    rw [usBoundaryAux_boundary r prev c.toUpper _ hne hr (pyUpper_toUpper hc),
      usBoundaryAux_joinCaps ws' (fun w hw => hws w (List.mem_cons_of_mem _ hw))
        rw2 c.toUpper hrne2 hwc2]
    rfl

/-- The boundary substitution restores a snake_case shape (with capitalized
words) from a camelized list of well-formed words. -/
theorem usBoundary_joinCaps (ws : List (List Char)) (hws : ∀ w ∈ ws, goodWord w) :
    usBoundary (joinCaps ws) = joinWords (ws.map capWord) := by
  cases ws with
  | nil => rfl
  | cons w ws' =>
    obtain ⟨c, r, rfl, hc, hrne, hwc⟩ := goodWord_elim (hws w (List.mem_cons_self w ws'))
    show c.toUpper :: usBoundaryAux c.toUpper (r ++ joinCaps ws') = _
    rw [usBoundaryAux_joinCaps ws' (fun w hw => hws w (List.mem_cons_of_mem _ hw))
        r c.toUpper hrne hwc]
    show c.toUpper :: (r ++ wordTail (ws'.map capWord))
      = joinWords (capWord (c :: r) :: ws'.map capWord)
    rw [joinWords_eq_wordTail]
    rfl

/-- The dash replacement followed by lower-casing recovers the original
snake_case key from the separator-restored capitalized form. -/
theorem cleanup_joinWords_caps : ∀ (ws : List (List Char)),
    (∀ w ∈ ws, goodWord w) →
    ((joinWords (ws.map capWord)).map fun c => if c = '-' then '_' else c).map
      Char.toLower = joinWords ws := by
  have run : ∀ (r : List Char), (∀ d ∈ r, wordChar d = true) →
      ((r.map fun c => if c = '-' then '_' else c).map Char.toLower) = r := by
    intro r
    induction r with
    | nil => intro _; rfl
    | cons d r' ih =>
      intro hr
      have hd := hr d (List.mem_cons_self d r')
      rw [List.map_cons, List.map_cons, if_neg (wordChar_ne_special hd).2,
        wordChar_toLower hd, ih fun e he => hr e (List.mem_cons_of_mem d he)]
  have word : ∀ (w : List Char), goodWord w →
      ((capWord w).map fun c => if c = '-' then '_' else c).map Char.toLower = w := by
    intro w hw
    obtain ⟨c, r, rfl, hc, hrne, hwc⟩ := goodWord_elim hw
    show ((c.toUpper :: r).map fun c => if c = '-' then '_' else c).map Char.toLower = _
    rw [List.map_cons, List.map_cons,
      if_neg (upper_not_special (pyUpper_toUpper hc)).2.2,
      toLower_toUpper_of_lower hc, run r hwc]
  have tail : ∀ (ws : List (List Char)), (∀ w ∈ ws, goodWord w) →
      ((wordTail (ws.map capWord)).map fun c => if c = '-' then '_' else c).map
        Char.toLower = wordTail ws := by
    intro ws
    induction ws with
    | nil => intro _; rfl
    | cons w ws' ih =>
      intro h
      show ((('_' :: (capWord w ++ wordTail (ws'.map capWord))).map
          fun c => if c = '-' then '_' else c).map Char.toLower)
        = '_' :: (w ++ wordTail ws')
      rw [List.map_cons, List.map_cons, if_neg (by decide),
        show Char.toLower '_' = '_' from rfl,
        List.map_append, List.map_append, word w (h w (List.mem_cons_self w ws')),
        ih fun w hw => h w (List.mem_cons_of_mem _ hw)]
  intro ws hws
  cases ws with
  | nil => rfl
  | cons w ws' =>
    show (((joinWords (capWord w :: ws'.map capWord)).map
        fun c => if c = '-' then '_' else c).map Char.toLower) = _
    rw [joinWords_eq_wordTail, List.map_append, List.map_append,
      word w (hws w (List.mem_cons_self w ws')),
      tail ws' fun w hw => hws w (List.mem_cons_of_mem _ hw),
      ← joinWords_eq_wordTail]

/-- On the camelization of a well-formed snake_case key, `underscore` maps back
into that key. -/
theorem underscore_joinCaps (ws : List (List Char)) (hws : ∀ w ∈ ws, goodWord w) :
    underscoreChars (joinCaps ws) = joinWords ws := by
  unfold underscoreChars
  rw [usAcronym_joinCaps ws hws, usBoundary_joinCaps ws hws,
    cleanup_joinWords_caps ws hws]

/-- Key-level round trip, snake direction. -/
theorem underscore_camelize_key {s : String} (h : goodSnakeKey s) :
    underscoreStr (camelizeStr s) = s := by
  obtain ⟨ws, hne, hws, hdata⟩ := h
  show String.mk (underscoreChars (camelizeChars s.data)) = s
  rw [hdata, camelize_joinWords ws hws, underscore_joinCaps ws hws, ← hdata]

/-- Key-level round trip, camel direction. -/
theorem camelize_underscore_key {s : String} (h : goodCamelKey s) :
    camelizeStr (underscoreStr s) = s := by
  obtain ⟨ws, hne, hws, hdata⟩ := h
  show String.mk (camelizeChars (underscoreChars s.data)) = s
  rw [hdata, underscore_joinCaps ws hws, camelize_joinWords ws hws, ← hdata]

/-! ### Value-level round trips -/

mutual

/-- Snake round trip on a value. -/
theorem snakeRoundVal : ∀ (v : PyVal), snakeKeysVal v →
    recursive_underscore (recursive_camelize v) = v
  | .vNone, _ => rfl
  | .vInt _, _ => rfl
  | .vStr _, _ => rfl
  | .vList xs, h => congrArg PyVal.vList (snakeRoundList xs h)
  | .vDict kvs, h => congrArg PyVal.vDict (snakeRoundDict kvs h)

/-- Snake round trip on a dict spine. -/
theorem snakeRoundDict : ∀ (d : PyDict), snakeKeysDict d →
    underscoreDict (camelizeDict d) = d
  | .nil, _ => rfl
  | .cons k v tl, h => by
    show PyDict.cons (underscoreStr (camelizeStr k))
        (recursive_underscore (recursive_camelize v)) (underscoreDict (camelizeDict tl))
      = PyDict.cons k v tl
    rw [underscore_camelize_key h.1, snakeRoundVal v h.2.1, snakeRoundDict tl h.2.2]

/-- Snake round trip on a list spine. -/
theorem snakeRoundList : ∀ (l : PyList), snakeKeysList l →
    underscoreList (camelizeList l) = l
  | .nil, _ => rfl
  | .cons v tl, h => by
    show PyList.cons (recursive_underscore (recursive_camelize v))
        (underscoreList (camelizeList tl)) = PyList.cons v tl
    rw [snakeRoundVal v h.1, snakeRoundList tl h.2]

end

mutual

/-- Camel round trip on a value. -/
theorem camelRoundVal : ∀ (v : PyVal), camelKeysVal v →
    recursive_camelize (recursive_underscore v) = v
  | .vNone, _ => rfl
  | .vInt _, _ => rfl
  | .vStr _, _ => rfl
  | .vList xs, h => congrArg PyVal.vList (camelRoundList xs h)
  | .vDict kvs, h => congrArg PyVal.vDict (camelRoundDict kvs h)

/-- Camel round trip on a dict spine. -/
theorem camelRoundDict : ∀ (d : PyDict), camelKeysDict d →
    camelizeDict (underscoreDict d) = d
  | .nil, _ => rfl
  | .cons k v tl, h => by
    show PyDict.cons (camelizeStr (underscoreStr k))
        (recursive_camelize (recursive_underscore v)) (camelizeDict (underscoreDict tl))
      = PyDict.cons k v tl
    rw [camelize_underscore_key h.1, camelRoundVal v h.2.1, camelRoundDict tl h.2.2]

/-- Camel round trip on a list spine. -/
theorem camelRoundList : ∀ (l : PyList), camelKeysList l →
    camelizeList (underscoreList l) = l
  | .nil, _ => rfl
  | .cons v tl, h => by
    show PyList.cons (recursive_camelize (recursive_underscore v))
        (camelizeList (underscoreList tl)) = PyList.cons v tl
    rw [camelRoundVal v h.1, camelRoundList tl h.2]

end

/-- Counterexample to claim C1 as stated: `"a_b"` is an underscore-style
(snake_case) key, yet `toSnake(toCamel({"a_b": None}))` is `{"ab": None}`:
`camelize("a_b") = "AB"` (both word-initial characters upper-cased, the
separator removed), and `underscore("AB")` has no lower-case character after
the upper-case pair, so neither substitution fires and lower-casing yields
`"ab"`. -/
theorem C1_roundtrip_counterexample :
    plainSnakeKey "a_b" ∧
    recursive_underscore (recursive_camelize (.vDict (.cons "a_b" .vNone .nil)))
      = .vDict (.cons "ab" .vNone .nil) ∧
    PyVal.vDict (.cons "ab" .vNone .nil) ≠ .vDict (.cons "a_b" .vNone .nil) := by
  refine ⟨⟨[['a'], ['b']], by decide, by decide, by decide⟩, rfl, ?_⟩
  intro h
  injection h with h'
  injection h' with hk _
  exact absurd hk (by decide)

/-- Claim C1 (amended): for every nested value built from mappings,
sequences, and scalars whose dict keys are snake_case identifiers in which
every underscore-separated word is a lower-case letter followed by at least
one more lower-case letter or digit, `toSnake(toCamel(m)) = m`; and
symmetrically `toCamel(toSnake(x)) = x` when every dict key is the
concatenation of the capitalized forms of such words.  (The amendment
excludes keys with a single-letter word, such as `"a_b"`, on which the
counterexample shows the round trip fails.) -/
theorem C1_roundtrip_amended :
    (∀ v : PyVal, snakeKeysVal v → recursive_underscore (recursive_camelize v) = v) ∧
    (∀ v : PyVal, camelKeysVal v → recursive_camelize (recursive_underscore v) = v) :=
  ⟨snakeRoundVal, camelRoundVal⟩

/-- Witness for C1 at a nested snake-keyed value and a camel-keyed value. -/
theorem C1_roundtrip_amended_witness :
    (snakeKeysVal (.vDict (.cons "product_count" (.vInt 3)
        (.cons "children"
          (.vList (.cons (.vDict (.cons "value_id" (.vStr "Xy") .nil)) .nil)) .nil))) ∧
      recursive_underscore (recursive_camelize (.vDict (.cons "product_count" (.vInt 3)
        (.cons "children"
          (.vList (.cons (.vDict (.cons "value_id" (.vStr "Xy") .nil)) .nil)) .nil))))
        = .vDict (.cons "product_count" (.vInt 3)
            (.cons "children"
              (.vList (.cons (.vDict (.cons "value_id" (.vStr "Xy") .nil)) .nil)) .nil))) ∧
    (camelKeysVal (.vDict (.cons "ProductCount" .vNone .nil)) ∧
      recursive_camelize (recursive_underscore (.vDict (.cons "ProductCount" .vNone .nil)))
        = .vDict (.cons "ProductCount" .vNone .nil)) := by
  have hs : snakeKeysVal (.vDict (.cons "product_count" (.vInt 3)
      (.cons "children"
        (.vList (.cons (.vDict (.cons "value_id" (.vStr "Xy") .nil)) .nil)) .nil))) := by
    refine ⟨⟨["product".data, "count".data], by decide, by decide, by decide⟩, trivial,
      ⟨["children".data], by decide, by decide, by decide⟩,
      ⟨⟨⟨["value".data, "id".data], by decide, by decide, by decide⟩, trivial, trivial⟩,
        trivial⟩, trivial⟩
  have hc : camelKeysVal (.vDict (.cons "ProductCount" .vNone .nil)) := by
    exact ⟨⟨["product".data, "count".data], by decide, by decide, by decide⟩,
      trivial, trivial⟩
  exact ⟨⟨hs, C1_roundtrip_amended.1 _ hs⟩, ⟨hc, C1_roundtrip_amended.2 _ hc⟩⟩

end Digikey
